import Mathlib

set_option maxRecDepth 100000

/-!
Shallow embedding of the Netgear LM1200 SMS poller's state & deduplication
engine (`netgear_sms_poller.py`), together with proofs of its specified
properties.  Pure functions of the Python source become Lean functions;
stateful code becomes explicit state passing; I/O successes and failures
and wall-clock time become explicit parameters of the poll cycle.
-/

/-! ### SHA-256 (model of Python's `hashlib.sha256(...).hexdigest()`)

32-bit words are `Nat` values reduced modulo `2^32`.  Byte strings are
`List Nat` with every element below 256. -/

namespace SHA256

def w32 (n : Nat) : Nat := n % 4294967296

def rotr (n x : Nat) : Nat := w32 ((x >>> n) ||| (x <<< (32 - n)))

def bigS0 (x : Nat) : Nat := rotr 2 x ^^^ rotr 13 x ^^^ rotr 22 x

def bigS1 (x : Nat) : Nat := rotr 6 x ^^^ rotr 11 x ^^^ rotr 25 x

def smallS0 (x : Nat) : Nat := rotr 7 x ^^^ rotr 18 x ^^^ (x >>> 3)

def smallS1 (x : Nat) : Nat := rotr 17 x ^^^ rotr 19 x ^^^ (x >>> 10)

def ch (x y z : Nat) : Nat := (x &&& y) ^^^ ((x ^^^ 4294967295) &&& z)

def maj (x y z : Nat) : Nat := (x &&& y) ^^^ (x &&& z) ^^^ (y &&& z)

def K : List Nat :=
  [1116352408, 1899447441, 3049323471, 3921009573, 961987163, 1508970993,
   2453635748, 2870763221, 3624381080, 310598401, 607225278, 1426881987,
   1925078388, 2162078206, 2614888103, 3248222580, 3835390401, 4022224774,
   264347078, 604807628, 770255983, 1249150122, 1555081692, 1996064986,
   2554220882, 2821834349, 2952996808, 3210313671, 3336571891, 3584528711,
   113926993, 338241895, 666307205, 773529912, 1294757372, 1396182291,
   1695183700, 1986661051, 2177026350, 2456956037, 2730485921, 2820302411,
   3259730800, 3345764771, 3516065817, 3600352804, 4094571909, 275423344,
   430227734, 506948616, 659060556, 883997877, 958139571, 1322822218,
   1537002063, 1747873779, 1955562222, 2024104815, 2227730452, 2361852424,
   2428436474, 2756734187, 3204031479, 3329325298]

structure Regs where
  a : Nat
  b : Nat
  c : Nat
  d : Nat
  e : Nat
  f : Nat
  g : Nat
  h : Nat
deriving DecidableEq

def round (r : Regs) (kw : Nat × Nat) : Regs :=
  let t1 := w32 (r.h + bigS1 r.e + ch r.e r.f r.g + kw.1 + kw.2)
  let t2 := w32 (bigS0 r.a + maj r.a r.b r.c)
  ⟨w32 (t1 + t2), r.a, r.b, r.c, w32 (r.d + t1), r.e, r.f, r.g⟩

def extendW (ws : List Nat) : Nat → List Nat
  | 0 => ws
  | k + 1 =>
    let n := ws.length
    let wNew := w32 (smallS1 (ws.getD (n - 2) 0) + ws.getD (n - 7) 0 +
                     smallS0 (ws.getD (n - 15) 0) + ws.getD (n - 16) 0)
    extendW (ws ++ [wNew]) k

def schedule (block : List Nat) : List Nat := extendW block 48

def H0 : Regs :=
  ⟨1779033703, 3144134277, 1013904242, 2773480762,
   1359893119, 2600822924, 528734635, 1541459225⟩

def compress (hs : Regs) (block : List Nat) : Regs :=
  let r := ((schedule block).zip K).foldl round hs
  ⟨w32 (hs.a + r.a), w32 (hs.b + r.b), w32 (hs.c + r.c), w32 (hs.d + r.d),
   w32 (hs.e + r.e), w32 (hs.f + r.f), w32 (hs.g + r.g), w32 (hs.h + r.h)⟩

def padBytes (msg : List Nat) : List Nat :=
  let len := msg.length
  let zeros := (64 - ((len + 9) % 64)) % 64
  let bitLen := len * 8
  msg ++ [128] ++ List.replicate zeros 0 ++
    [(bitLen >>> 56) % 256, (bitLen >>> 48) % 256, (bitLen >>> 40) % 256,
     (bitLen >>> 32) % 256, (bitLen >>> 24) % 256, (bitLen >>> 16) % 256,
     (bitLen >>> 8) % 256, bitLen % 256]

def bytesToWords : List Nat → List Nat
  | b0 :: b1 :: b2 :: b3 :: rest =>
      (b0 * 16777216 + b1 * 65536 + b2 * 256 + b3) :: bytesToWords rest
  | _ => []

def toBlocksAux : Nat → List Nat → List (List Nat)
  | 0, _ => []
  | _, [] => []
  | fuel + 1, l => l.take 16 :: toBlocksAux fuel (l.drop 16)

def toBlocks (l : List Nat) : List (List Nat) := toBlocksAux l.length l

def processBlocks (msg : List Nat) : Regs :=
  (toBlocks (bytesToWords (padBytes msg))).foldl compress H0

def hexDigit (n : Nat) : Char :=
  if n < 10 then Char.ofNat (48 + n) else Char.ofNat (87 + n)

def wordHex (wd : Nat) : List Char :=
  [hexDigit ((wd >>> 28) % 16), hexDigit ((wd >>> 24) % 16),
   hexDigit ((wd >>> 20) % 16), hexDigit ((wd >>> 16) % 16),
   hexDigit ((wd >>> 12) % 16), hexDigit ((wd >>> 8) % 16),
   hexDigit ((wd >>> 4) % 16), hexDigit (wd % 16)]

def hexdigest (msg : List Nat) : String :=
  let r := processBlocks msg
  String.mk (wordHex r.a ++ wordHex r.b ++ wordHex r.c ++ wordHex r.d ++
             wordHex r.e ++ wordHex r.f ++ wordHex r.g ++ wordHex r.h)

def utf8Char (c : Char) : List Nat :=
  let n := c.toNat
  if n < 128 then [n]
  else if n < 2048 then [192 ||| (n >>> 6), 128 ||| (n &&& 63)]
  else if n < 65536 then
    [224 ||| (n >>> 12), 128 ||| ((n >>> 6) &&& 63), 128 ||| (n &&& 63)]
  else
    [240 ||| (n >>> 18), 128 ||| ((n >>> 12) &&& 63),
     128 ||| ((n >>> 6) &&& 63), 128 ||| (n &&& 63)]

def utf8Encode (s : String) : List Nat := (s.data.map utf8Char).flatten

end SHA256

/-- Model of `hashlib.sha256(s.encode('utf-8')).hexdigest()[:16]`. -/
def sha256hex16 (s : String) : String := (SHA256.hexdigest (SHA256.utf8Encode s)).take 16

/-! ### Data model -/

/-- Model of the `SMSMessage` dataclass. -/
structure SMSMessage where
  id : Int
  number : String
  time : String
  content : String
  read : Bool
deriving DecidableEq

/-- Model of a JSON-archive entry: a dict whose fields may be absent
(legacy or corrupt entries).  `asdict` of an `SMSMessage` has all fields. -/
structure SmsDict where
  id : Option Int := none
  number : Option String := none
  time : Option String := none
  content : Option String := none
  read : Option Bool := none
deriving DecidableEq

/-- Model of `dataclasses.asdict` applied to an `SMSMessage`. -/
def asdict (sms : SMSMessage) : SmsDict :=
  ⟨some sms.id, some sms.number, some sms.time, some sms.content, some sms.read⟩

/-- Model of `compute_sms_hash`: SHA-256 of `number|time|content`
(UTF-8), truncated to the first 16 hex characters.  The id is excluded. -/
def compute_sms_hash (sms : SMSMessage) : String :=
  sha256hex16 (sms.number ++ "|" ++ sms.time ++ "|" ++ sms.content)

/-- Model of `compute_sms_hash_dict`: the same digest over a dict entry,
missing fields defaulting to the empty string (defensive `.get`). -/
def compute_sms_hash_dict (msg : SmsDict) : String :=
  sha256hex16 ((msg.number).getD "" ++ "|" ++ (msg.time).getD "" ++ "|" ++ (msg.content).getD "")

/-- Model of the `latest_sms` dict held in the poller state; `none`
models the initial empty dict. -/
structure LatestSMS where
  number : String
  time : String
  content : String
deriving DecidableEq

/-- Model of the `SMSPollerState` dataclass.  Timestamps are opaque `Nat`
values supplied by the environment in place of `time.time()`. -/
structure SMSPollerState where
  last_processed_sms_id : Int := 0
  max_sms_id_seen : Int := 0
  last_check : Nat := 0
  total_sms_received : Nat := 0
  last_sms_timestamp : Nat := 0
  latest_sms : Option LatestSMS := none
  processed_hashes : List String := []
deriving DecidableEq

/-- Model of `is_new_sms`: hash-based deduplication only; the id-reset
comparison in the source only emits a log line and never changes the
boolean result. -/
def is_new_sms (sms : SMSMessage) (state : SMSPollerState) : Bool :=
  if compute_sms_hash sms ∈ state.processed_hashes then false else true

namespace SMSPollerState

/-- Model of `SMSPollerState.update_with_new_sms`; `now` stands for the
`time.time()` calls made during the mutation. -/
def update_with_new_sms (now : Nat) (s : SMSPollerState) (sms : SMSMessage) : SMSPollerState :=
  let sms_hash := compute_sms_hash sms
  let processed :=
    if sms_hash ∈ s.processed_hashes then s.processed_hashes
    else
      let appended := s.processed_hashes ++ [sms_hash]
      if appended.length > 1000 then appended.drop (appended.length - 500) else appended
  { last_processed_sms_id := max s.last_processed_sms_id sms.id
    max_sms_id_seen := max s.max_sms_id_seen sms.id
    last_check := now
    total_sms_received := s.total_sms_received + 1
    last_sms_timestamp := now
    latest_sms := some ⟨sms.number, sms.time, sms.content⟩
    processed_hashes := processed }

/-- Model of `SMSPollerState.mark_check`. -/
def mark_check (now : Nat) (s : SMSPollerState) : SMSPollerState :=
  { s with last_check := now }

end SMSPollerState

/-- Model of the parsed JSON object found in the state file: each
dataclass field may be present or absent, and `extras` models unknown
extra keys (whose values the loader filters out before construction). -/
structure StoredState where
  last_processed_sms_id : Option Int := none
  max_sms_id_seen : Option Int := none
  last_check : Option Nat := none
  total_sms_received : Option Nat := none
  last_sms_timestamp : Option Nat := none
  latest_sms : Option (Option LatestSMS) := none
  processed_hashes : Option (List String) := none
  extras : List String := []
deriving DecidableEq

/-- Model of `load_state` on a successfully parsed state file: the
v1.0 to v1.1 migration inserts `processed_hashes := []` when absent and
seeds `max_sms_id_seen` from `last_processed_sms_id` (default 0) when
absent; keys outside the dataclass fields are dropped; fields absent from
the dict take the dataclass defaults. -/
def load_state (d : StoredState) : SMSPollerState :=
  { last_processed_sms_id := d.last_processed_sms_id.getD 0
    max_sms_id_seen := d.max_sms_id_seen.getD (d.last_processed_sms_id.getD 0)
    last_check := d.last_check.getD 0
    total_sms_received := d.total_sms_received.getD 0
    last_sms_timestamp := d.last_sms_timestamp.getD 0
    latest_sms := d.latest_sms.getD none
    processed_hashes := d.processed_hashes.getD [] }

/-- One step of the merge loop in `save_sms_to_json`: skip the candidate
when its fingerprint is already recorded in the accumulated hash set,
otherwise append it and record its fingerprint.  The set
`existing_hashes` is modelled as a list used only through membership. -/
def archive_step (acc : List SmsDict × List String) (sms : SmsDict) : List SmsDict × List String :=
  let sms_hash := compute_sms_hash_dict sms
  if sms_hash ∈ acc.2 then acc else (acc.1 ++ [sms], acc.2 ++ [sms_hash])

/-- Model of the pure merge inside `save_sms_to_json`: fold the batch
(converted by `asdict`) over the parsed existing file contents, skipping
any entry whose fingerprint is already on disk or was added earlier in
the same call. -/
def save_sms_to_json (existing : List SmsDict) (sms_list : List SMSMessage) : List SmsDict :=
  ((sms_list.map asdict).foldl archive_step (existing, existing.map compute_sms_hash_dict)).1

/-- Injected environment for one `poll_sms` invocation: the global
shutdown flag as sampled at the successive cooperative checkpoints, the
combined login-plus-fetch result (an `Except` failure models any
network, authentication or JSON exception handled at the bottom of
`poll_sms`), the success of the two disk writes, and the wall-clock
time. -/
structure PollEnv where
  shutdown : Nat → Bool
  fetch : Except Unit (List SMSMessage)
  state_save_ok : Bool
  archive_save_ok : Bool
  now : Nat

/-- Observable outcome of one `poll_sms` invocation: the exit code and
the durable contents of the state file and of the current month's
archive file after the call. -/
structure PollOut where
  exit : Nat
  stored : SMSPollerState
  archive : List SmsDict
deriving DecidableEq

/-- Model of `poll_sms`, parameterised by the durable state-file contents
(`state0`, the record `load_state` returned) and the current month's
archive contents (`archive0`).  A failed save leaves the corresponding
file unchanged (atomic temp-file-plus-rename discipline). -/
def poll_sms (env : PollEnv) (state0 : SMSPollerState) (archive0 : List SmsDict) : PollOut :=
  if env.shutdown 0 then ⟨130, state0, archive0⟩
  else
    match env.fetch with
    | .error _ => ⟨1, state0, archive0⟩
    | .ok sms_list =>
      if env.shutdown 1 then ⟨130, state0, archive0⟩
      else if sms_list = [] then
        if env.state_save_ok then ⟨0, SMSPollerState.mark_check env.now state0, archive0⟩
        else ⟨1, state0, archive0⟩
      else
        let new_sms := sms_list.filter (fun sms => is_new_sms sms state0)
        if new_sms = [] then
          if env.state_save_ok then ⟨0, SMSPollerState.mark_check env.now state0, archive0⟩
          else ⟨1, state0, archive0⟩
        else
          let archive1 := if env.archive_save_ok then save_sms_to_json archive0 new_sms else archive0
          let state1 := new_sms.foldl (SMSPollerState.update_with_new_sms env.now) state0
          if env.state_save_ok then ⟨2, state1, archive1⟩ else ⟨1, state0, archive1⟩

/-! ### Sanity checks of the SHA-256 model against the standard test vectors -/

theorem sha256_test_vector_abc : SHA256.hexdigest (SHA256.utf8Encode "abc") =
    "ba7816bf8f01cfea414140de5dae2223b00361a396177a9cb410ff61f20015ad" := by decide

theorem sha256_test_vector_empty : SHA256.hexdigest (SHA256.utf8Encode "") =
    "e3b0c44298fc1c149afbf4c8996fb92427ae41e4649b934ca495991b7852b855" := by decide

theorem sha256_test_vector_long : SHA256.hexdigest (SHA256.utf8Encode
    "abcdbcdecdefdefgefghfghighijhijkijkljklmklmnlmnomnopnopq") =
    "248d6a61d20638b8e5c026930c3e6039a33ce45964ff2167f6ecedd419db06c1" := by decide

/-! ### Shared helper lemmas -/

/-- The dict-based fingerprint of `asdict sms` coincides with the
message-based fingerprint of `sms`. -/
theorem hash_dict_asdict (sms : SMSMessage) :
    compute_sms_hash_dict (asdict sms) = compute_sms_hash sms := rfl

/-- When the fingerprint is already recorded, `update_with_new_sms`
leaves the fingerprint collection unchanged. -/
theorem update_ph_mem (now : Nat) (s : SMSPollerState) (sms : SMSMessage)
    (h : compute_sms_hash sms ∈ s.processed_hashes) :
    (SMSPollerState.update_with_new_sms now s sms).processed_hashes = s.processed_hashes := by
  simp [SMSPollerState.update_with_new_sms, h]

/-- When the fingerprint is fresh and the collection is strictly below
the 1000 bound, `update_with_new_sms` appends it without truncation. -/
theorem update_ph_new (now : Nat) (s : SMSPollerState) (sms : SMSMessage)
    (h : compute_sms_hash sms ∉ s.processed_hashes)
    (hlen : s.processed_hashes.length < 1000) :
    (SMSPollerState.update_with_new_sms now s sms).processed_hashes =
      s.processed_hashes ++ [compute_sms_hash sms] := by
  have hgt : ¬ (1000 < s.processed_hashes.length + 1) := by omega
  simp [SMSPollerState.update_with_new_sms, if_neg h, hgt]

/-- `update_with_new_sms` increments the received counter by one. -/
theorem update_total (now : Nat) (s : SMSPollerState) (sms : SMSMessage) :
    (SMSPollerState.update_with_new_sms now s sms).total_sms_received =
      s.total_sms_received + 1 := rfl

/-! ### Claim theorems -/

/-- A message whose fingerprint is already recorded is not new. -/
theorem is_new_sms_false (sms : SMSMessage) (state : SMSPollerState)
    (h : compute_sms_hash sms ∈ state.processed_hashes) :
    is_new_sms sms state = false := by
  simp [is_new_sms, h]

/-- C9: the two fingerprint implementations agree: for every message,
`compute_sms_hash` equals `compute_sms_hash_dict` applied to the
message's `asdict` form, so the in-memory deduplicator and the archive
merge use the same deduplication key for the same message. -/
theorem c9_fingerprints_agree (sms : SMSMessage) :
    compute_sms_hash sms = compute_sms_hash_dict (asdict sms) := rfl

/-- C2 counterexample: the field separator can occur inside fields, so
equal fingerprints do not imply equal (sender, receivedAt, body)
triples: these two messages have the same fingerprint yet differ in
sender and receivedAt. -/
theorem c2_counterexample :
    compute_sms_hash ⟨0, "a|b", "c", "x", false⟩ =
      compute_sms_hash ⟨0, "a", "b|c", "x", false⟩ ∧
    ¬ ((SMSMessage.mk 0 "a|b" "c" "x" false).number = (SMSMessage.mk 0 "a" "b|c" "x" false).number ∧
       (SMSMessage.mk 0 "a|b" "c" "x" false).time = (SMSMessage.mk 0 "a" "b|c" "x" false).time ∧
       (SMSMessage.mk 0 "a|b" "c" "x" false).content =
         (SMSMessage.mk 0 "a" "b|c" "x" false).content) := by
  constructor
  · decide
  · decide

/-- C2 amended: the fingerprint is deterministic and excludes the
device-assigned id: messages agreeing on sender, receivedAt and body
have equal fingerprints — in particular messages differing only in `id`
— but fingerprint equality does not conversely imply equality of the
triples. -/
theorem c2_amended (m1 m2 : SMSMessage)
    (hn : m1.number = m2.number) (ht : m1.time = m2.time) (hc : m1.content = m2.content) :
    compute_sms_hash m1 = compute_sms_hash m2 := by
  unfold compute_sms_hash
  rw [hn, ht, hc]

/-- C2 amended, witness: two concrete messages differing only in `id`
have identical fingerprints. -/
theorem c2_amended_witness :
    (SMSMessage.mk 1 "s" "t" "b" false).number = (SMSMessage.mk 2 "s" "t" "b" false).number ∧
    (SMSMessage.mk 1 "s" "t" "b" false).time = (SMSMessage.mk 2 "s" "t" "b" false).time ∧
    (SMSMessage.mk 1 "s" "t" "b" false).content = (SMSMessage.mk 2 "s" "t" "b" false).content ∧
    compute_sms_hash ⟨1, "s", "t", "b", false⟩ = compute_sms_hash ⟨2, "s", "t", "b", false⟩ :=
  ⟨rfl, rfl, rfl, c2_amended ⟨1, "s", "t", "b", false⟩ ⟨2, "s", "t", "b", false⟩ rfl rfl rfl⟩

/-- C6: schema migration on load: the two migrations act independently,
mirroring the two separate field-presence checks in `load_state`: a
stored record missing the fingerprint collection (whether or not
max-id-seen is present) loads with `processed_hashes` synthesized as
`[]`; a stored record missing the max-id-seen field (whether or not the
fingerprint collection is present) loads with `max_sms_id_seen` seeded
from the stored `last_processed_sms_id` (0 when that is also absent);
and unknown extra fields never affect the loaded record. -/
theorem c6_migration (d : StoredState) :
    (d.processed_hashes = none → (load_state d).processed_hashes = []) ∧
    (d.max_sms_id_seen = none →
      (load_state d).max_sms_id_seen = d.last_processed_sms_id.getD 0) ∧
    ∀ e : List String, load_state { d with extras := e } = load_state d := by
  refine ⟨fun hph => ?_, fun hmax => ?_, fun e => ?_⟩ <;> simp [load_state, *]

/-- C6 witness: a record missing only max-id-seen seeds it from
`last_processed_sms_id = 5`; a record missing only the fingerprint
collection synthesizes `[]`; a record missing both fields and
`last_processed_sms_id` seeds max-id-seen with 0; and an unknown extra
key leaves the loaded record unchanged. -/
theorem c6_migration_witness :
    (load_state { last_processed_sms_id := some 5, processed_hashes := some ["h"] }).max_sms_id_seen = 5 ∧
    (load_state { max_sms_id_seen := some 9 }).processed_hashes = [] ∧
    (load_state {}).max_sms_id_seen = 0 ∧
    load_state { ({ last_processed_sms_id := some 5 } : StoredState) with extras := ["unknown"] } =
      load_state { last_processed_sms_id := some 5 } := by
  refine ⟨?_, ?_, ?_, ?_⟩
  · simpa using
      (c6_migration { last_processed_sms_id := some 5, processed_hashes := some ["h"] }).2.1 rfl
  · exact (c6_migration { max_sms_id_seen := some 9 }).1 rfl
  · simpa using (c6_migration {}).2.1 rfl
  · exact (c6_migration { last_processed_sms_id := some 5 }).2.2 ["unknown"]

/-- C5: counter-reset robustness scenario: from
`lastProcessedId = 5, maxIdSeen = 5` and no stored fingerprints, the
single message with id 3 is classified new despite its id being below
`maxIdSeen`; the cycle exits with code 2 and the new state has
`lastProcessedId = 5`, `maxIdSeen = 5` and exactly one fingerprint. -/
theorem c5_counter_reset_scenario :
    is_new_sms ⟨3, "+49x", "t1", "OTP 123", false⟩
      { last_processed_sms_id := 5, max_sms_id_seen := 5 } = true ∧
    (poll_sms ⟨fun _ => false, .ok [⟨3, "+49x", "t1", "OTP 123", false⟩], true, true, 7⟩
      { last_processed_sms_id := 5, max_sms_id_seen := 5 } []).exit = 2 ∧
    (poll_sms ⟨fun _ => false, .ok [⟨3, "+49x", "t1", "OTP 123", false⟩], true, true, 7⟩
      { last_processed_sms_id := 5, max_sms_id_seen := 5 } []).stored.last_processed_sms_id = 5 ∧
    (poll_sms ⟨fun _ => false, .ok [⟨3, "+49x", "t1", "OTP 123", false⟩], true, true, 7⟩
      { last_processed_sms_id := 5, max_sms_id_seen := 5 } []).stored.max_sms_id_seen = 5 ∧
    (poll_sms ⟨fun _ => false, .ok [⟨3, "+49x", "t1", "OTP 123", false⟩], true, true, 7⟩
      { last_processed_sms_id := 5, max_sms_id_seen := 5 } []).stored.processed_hashes.length = 1 := by
  refine ⟨rfl, rfl, ?_, ?_, rfl⟩ <;> decide

/-- C4: bounded fingerprint history with hysteresis: the initial state
satisfies the 1000 bound, every state mutation preserves it, and when an
append makes the collection exceed 1000 entries the result is exactly
the last 500 entries of the appended list in their original order and
has size exactly 500. -/
theorem c4_bounded_history (s : SMSPollerState) (sms : SMSMessage) (now : Nat)
    (hinv : s.processed_hashes.length ≤ 1000) :
    ({} : SMSPollerState).processed_hashes.length ≤ 1000 ∧
    (SMSPollerState.mark_check now s).processed_hashes = s.processed_hashes ∧
    (SMSPollerState.update_with_new_sms now s sms).processed_hashes.length ≤ 1000 ∧
    (compute_sms_hash sms ∉ s.processed_hashes →
      (s.processed_hashes ++ [compute_sms_hash sms]).length > 1000 →
      (SMSPollerState.update_with_new_sms now s sms).processed_hashes =
        (s.processed_hashes ++ [compute_sms_hash sms]).drop
          ((s.processed_hashes ++ [compute_sms_hash sms]).length - 500) ∧
      (SMSPollerState.update_with_new_sms now s sms).processed_hashes.length = 500) := by
  refine ⟨by simp, rfl, ?_, ?_⟩
  · by_cases hmem : compute_sms_hash sms ∈ s.processed_hashes
    · rw [update_ph_mem now s sms hmem]; exact hinv
    · simp only [SMSPollerState.update_with_new_sms, if_neg hmem]
      by_cases hbig : (s.processed_hashes ++ [compute_sms_hash sms]).length > 1000
      · simp only [if_pos hbig, List.length_drop]
        omega
      · simp only [if_neg hbig]
        omega
  · intro hmem hbig
    constructor
    · simp only [SMSPollerState.update_with_new_sms, if_neg hmem, if_pos hbig]
    · simp only [SMSPollerState.update_with_new_sms, if_neg hmem, if_pos hbig,
        List.length_drop]
      simp only [List.length_append, List.length_singleton] at hbig ⊢
      omega

/-- C4 witness: a state holding exactly 1000 fingerprints satisfies the
bound hypothesis, and an update keeps the collection within the bound. -/
theorem c4_bounded_history_witness :
    ({ processed_hashes := List.replicate 1000 "x" } : SMSPollerState).processed_hashes.length
        ≤ 1000 ∧
    (SMSPollerState.update_with_new_sms 0
        { processed_hashes := List.replicate 1000 "x" }
        ⟨1, "a", "t", "b", false⟩).processed_hashes.length ≤ 1000 :=
  ⟨by simp, (c4_bounded_history { processed_hashes := List.replicate 1000 "x" }
      ⟨1, "a", "t", "b", false⟩ 0 (by simp)).2.2.1⟩

/-- The merge loop of `save_sms_to_json` keeps the accumulated hash list
equal to the fingerprints of the accumulated entries, and preserves
pairwise-distinct fingerprints. -/
theorem archive_fold_invariant (ds : List SmsDict) :
    ∀ acc : List SmsDict × List String, acc.2 = acc.1.map compute_sms_hash_dict →
      (ds.foldl archive_step acc).2 =
        (ds.foldl archive_step acc).1.map compute_sms_hash_dict ∧
      (List.Pairwise (fun a b => compute_sms_hash_dict a ≠ compute_sms_hash_dict b) acc.1 →
        List.Pairwise (fun a b => compute_sms_hash_dict a ≠ compute_sms_hash_dict b)
          (ds.foldl archive_step acc).1) := by
  induction ds with
  | nil => exact fun acc hacc => ⟨hacc, fun hp => hp⟩
  | cons d ds ih =>
    intro acc hacc
    by_cases hmem : compute_sms_hash_dict d ∈ acc.2
    · have hstep : archive_step acc d = acc := by simp [archive_step, hmem]
      rw [List.foldl_cons, hstep]
      exact ih acc hacc
    · have hstep : archive_step acc d = (acc.1 ++ [d], acc.2 ++ [compute_sms_hash_dict d]) := by
        simp [archive_step, hmem]
      have hacc' : (acc.1 ++ [d], acc.2 ++ [compute_sms_hash_dict d]).2 =
          (acc.1 ++ [d], acc.2 ++ [compute_sms_hash_dict d]).1.map compute_sms_hash_dict := by
        simp [hacc]
      have h2 := ih (acc.1 ++ [d], acc.2 ++ [compute_sms_hash_dict d]) hacc'
      rw [List.foldl_cons, hstep]
      refine ⟨h2.1, fun hp => h2.2 ?_⟩
      rw [List.pairwise_append]
      refine ⟨hp, by simp, ?_⟩
      intro a ha b hb
      have hb' : b = d := by simpa using hb
      subst hb'
      intro heq
      exact hmem (hacc ▸ (heq ▸ List.mem_map_of_mem compute_sms_hash_dict ha))

/-- When every candidate's fingerprint is already in the accumulated
hash list, the merge loop of `save_sms_to_json` adds nothing. -/
theorem archive_fold_skip (ds : List SmsDict) :
    ∀ acc : List SmsDict × List String,
      (∀ d ∈ ds, compute_sms_hash_dict d ∈ acc.2) →
      ds.foldl archive_step acc = acc := by
  induction ds with
  | nil => exact fun acc _ => rfl
  | cons d ds ih =>
    intro acc hall
    have hmem : compute_sms_hash_dict d ∈ acc.2 := hall d (by simp)
    have hstep : archive_step acc d = acc := by simp [archive_step, hmem]
    rw [List.foldl_cons, hstep]
    exact ih acc fun x hx => hall x (by simp [hx])

/-- C7 counterexample: over an existing archive that already contains
two entries with the same fingerprint, the merge keeps both, so
duplicate-freedom of the resulting file fails for arbitrary existing
contents. -/
theorem c7_counterexample :
    ¬ List.Pairwise (fun a b => compute_sms_hash_dict a ≠ compute_sms_hash_dict b)
      (save_sms_to_json [{}, {}] [⟨1, "a", "t", "b", false⟩]) := by
  intro hp
  have hres : save_sms_to_json [{}, {}] [⟨1, "a", "t", "b", false⟩] =
      [{}, {}, asdict ⟨1, "a", "t", "b", false⟩] := by decide
  rw [hres] at hp
  exact (List.pairwise_cons.1 hp).1 {} (by simp) rfl

/-- C7 amended: when the existing archive contents are duplicate-free,
the merged result is duplicate-free (skipping candidates whose
fingerprint is already on disk or was added earlier within the same
call), and a batch whose every fingerprint is already on disk leaves the
file unchanged. -/
theorem c7_archive_merge (existing : List SmsDict) (batch : List SMSMessage)
    (hdup : List.Pairwise (fun a b => compute_sms_hash_dict a ≠ compute_sms_hash_dict b)
      existing) :
    List.Pairwise (fun a b => compute_sms_hash_dict a ≠ compute_sms_hash_dict b)
      (save_sms_to_json existing batch) ∧
    ((∀ sms ∈ batch, compute_sms_hash sms ∈ existing.map compute_sms_hash_dict) →
      save_sms_to_json existing batch = existing) := by
  constructor
  · exact (archive_fold_invariant (batch.map asdict)
      (existing, existing.map compute_sms_hash_dict) rfl).2 hdup
  · intro hall
    have hmap : ∀ d ∈ batch.map asdict,
        compute_sms_hash_dict d ∈ existing.map compute_sms_hash_dict := by
      intro d hd
      rcases List.mem_map.1 hd with ⟨sms, hsms, rfl⟩
      rw [hash_dict_asdict]
      exact hall sms hsms
    unfold save_sms_to_json
    rw [archive_fold_skip (batch.map asdict) (existing, existing.map compute_sms_hash_dict) hmap]

/-- C7 amended, witness: merging a concrete batch into an empty
(duplicate-free) archive yields a duplicate-free archive. -/
theorem c7_archive_merge_witness :
    List.Pairwise (fun a b => compute_sms_hash_dict a ≠ compute_sms_hash_dict b)
      ([] : List SmsDict) ∧
    List.Pairwise (fun a b => compute_sms_hash_dict a ≠ compute_sms_hash_dict b)
      (save_sms_to_json [] [⟨1, "a", "t", "b", false⟩]) :=
  ⟨List.Pairwise.nil, (c7_archive_merge [] [⟨1, "a", "t", "b", false⟩] List.Pairwise.nil).1⟩

/-- Unfolding of `poll_sms` on the accepted-messages path. -/
theorem poll_sms_newbranch (sh : Nat → Bool) (B : List SMSMessage) (sso aso : Bool) (t : Nat)
    (S : SMSPollerState) (A : List SmsDict)
    (h0 : sh 0 = false) (h1 : sh 1 = false)
    (hnew : B.filter (fun sms => is_new_sms sms S) ≠ []) :
    poll_sms ⟨sh, .ok B, sso, aso, t⟩ S A =
      if sso then
        ⟨2, (B.filter (fun sms => is_new_sms sms S)).foldl
              (SMSPollerState.update_with_new_sms t) S,
          if aso then save_sms_to_json A (B.filter (fun sms => is_new_sms sms S)) else A⟩
      else ⟨1, S, if aso then save_sms_to_json A (B.filter (fun sms => is_new_sms sms S)) else A⟩ := by
  have hB : B ≠ [] := by
    intro h
    subst h
    simp at hnew
  simp [poll_sms, h0, h1, hB, hnew]

/-- Unfolding of `poll_sms` when the batch is nonempty but contains no
new messages. -/
theorem poll_sms_nonewbranch (sh : Nat → Bool) (B : List SMSMessage) (sso aso : Bool) (t : Nat)
    (S : SMSPollerState) (A : List SmsDict)
    (h0 : sh 0 = false) (h1 : sh 1 = false) (hB : B ≠ [])
    (hnone : B.filter (fun sms => is_new_sms sms S) = []) :
    poll_sms ⟨sh, .ok B, sso, aso, t⟩ S A =
      if sso then ⟨0, SMSPollerState.mark_check t S, A⟩ else ⟨1, S, A⟩ := by
  simp [poll_sms, h0, h1, hB, hnone]

/-- C3: durability failures are asymmetric: a state-save failure after
accepting messages is fatal (exit 1, durable record unchanged), while an
archive-save failure is non-fatal: the cycle still applies and persists
the state updates and exits 2. -/
theorem c3_durability_asymmetry (S : SMSPollerState) (A : List SmsDict)
    (B : List SMSMessage) (t : Nat) (aso : Bool)
    (hnew : B.filter (fun sms => is_new_sms sms S) ≠ []) :
    (poll_sms ⟨fun _ => false, .ok B, false, aso, t⟩ S A).exit = 1 ∧
    (poll_sms ⟨fun _ => false, .ok B, false, aso, t⟩ S A).stored = S ∧
    (poll_sms ⟨fun _ => false, .ok B, true, false, t⟩ S A).exit = 2 ∧
    (poll_sms ⟨fun _ => false, .ok B, true, false, t⟩ S A).stored =
      (B.filter (fun sms => is_new_sms sms S)).foldl
        (SMSPollerState.update_with_new_sms t) S := by
  have e1 := poll_sms_newbranch (fun _ => false) B false aso t S A rfl rfl hnew
  have e2 := poll_sms_newbranch (fun _ => false) B true false t S A rfl rfl hnew
  refine ⟨?_, ?_, ?_, ?_⟩ <;> simp [e1, e2]

/-- C3 witness: with one fresh message, a failing state save exits 1 and
a failing archive save still exits 2. -/
theorem c3_durability_asymmetry_witness :
    ([⟨1, "a", "t", "b", false⟩] : List SMSMessage).filter
        (fun sms => is_new_sms sms {}) ≠ [] ∧
    (poll_sms ⟨fun _ => false, .ok [⟨1, "a", "t", "b", false⟩], false, true, 0⟩ {} []).exit = 1 ∧
    (poll_sms ⟨fun _ => false, .ok [⟨1, "a", "t", "b", false⟩], true, false, 0⟩ {} []).exit = 2 :=
  ⟨by decide,
    (c3_durability_asymmetry {} [] [⟨1, "a", "t", "b", false⟩] 0 true (by decide)).1,
    (c3_durability_asymmetry {} [] [⟨1, "a", "t", "b", false⟩] 0 true (by decide)).2.2.1⟩

/-- With both checkpoint samples false, `poll_sms` never exits 130. -/
theorem poll_sms_no_cancel_exit (sh : Nat → Bool) (fe : Except Unit (List SMSMessage))
    (sso aso : Bool) (t : Nat) (S : SMSPollerState) (A : List SmsDict)
    (h0 : sh 0 = false) (h1 : sh 1 = false) :
    (poll_sms ⟨sh, fe, sso, aso, t⟩ S A).exit ≠ 130 := by
  cases fe with
  | error e => simp [poll_sms, h0]
  | ok B =>
    by_cases hB : B = []
    · subst hB
      cases sso <;> simp [poll_sms, h0, h1]
    · by_cases hf : B.filter (fun sms => is_new_sms sms S) = []
      · rw [poll_sms_nonewbranch sh B sso aso t S A h0 h1 hB hf]
        cases sso <;> simp
      · rw [poll_sms_newbranch sh B sso aso t S A h0 h1 hf]
        cases sso <;> simp

/-- C8: cancellation is honored only at the two defined checkpoints: the
cycle exits 130 exactly when the flag is set at the first sample
(before any request) or the batch was received and the flag is set at
the second sample (before any mutation); an interrupted cycle leaves
both durable files untouched; and the outcome depends on the
cancellation flag only through those two samples. -/
theorem c8_cancellation_checkpoints (env : PollEnv) (S : SMSPollerState) (A : List SmsDict) :
    ((poll_sms env S A).exit = 130 ↔
      env.shutdown 0 = true ∨ ((∃ B, env.fetch = .ok B) ∧ env.shutdown 1 = true)) ∧
    ((poll_sms env S A).exit = 130 →
      (poll_sms env S A).stored = S ∧ (poll_sms env S A).archive = A) ∧
    (∀ env' : PollEnv,
      env'.shutdown 0 = env.shutdown 0 → env'.shutdown 1 = env.shutdown 1 →
      env'.fetch = env.fetch → env'.state_save_ok = env.state_save_ok →
      env'.archive_save_ok = env.archive_save_ok → env'.now = env.now →
      poll_sms env' S A = poll_sms env S A) := by
  obtain ⟨sh, fe, sso, aso, t⟩ := env
  refine ⟨?_, ?_, ?_⟩
  · by_cases h0 : sh 0 = true
    · simp [poll_sms, h0]
    · have h0' : sh 0 = false := by revert h0; cases sh 0 <;> simp
      cases fe with
      | error e => simp [poll_sms, h0']
      | ok B =>
        by_cases h1 : sh 1 = true
        · simp [poll_sms, h0', h1]
        · have h1' : sh 1 = false := by revert h1; cases sh 1 <;> simp
          have hne := poll_sms_no_cancel_exit sh (.ok B) sso aso t S A h0' h1'
          simp [hne, h0', h1']
  · intro h130
    by_cases h0 : sh 0 = true
    · simp [poll_sms, h0]
    · have h0' : sh 0 = false := by revert h0; cases sh 0 <;> simp
      cases fe with
      | error e => simp [poll_sms, h0'] at h130
      | ok B =>
        by_cases h1 : sh 1 = true
        · simp [poll_sms, h0', h1]
        · have h1' : sh 1 = false := by revert h1; cases sh 1 <;> simp
          exact absurd h130 (poll_sms_no_cancel_exit sh (.ok B) sso aso t S A h0' h1')
  · intro env' h0 h1 hfe hsso haso hnow
    obtain ⟨sh', fe', sso', aso', t'⟩ := env'
    dsimp only at h0 h1 hfe hsso haso hnow
    rw [hfe, hsso, haso, hnow]
    cases fe with
    | error e => simp [poll_sms, h0]
    | ok B => simp [poll_sms, h0, h1]

/-- Applying `update_with_new_sms` along a batch whose length fits in
the remaining fingerprint capacity never truncates: the resulting
collection retains every previous fingerprint, contains the fingerprint
of every processed message, and its length stays within the starting
length plus the batch length. -/
theorem fold_update_no_trunc (t : Nat) :
    ∀ (L : List SMSMessage) (s : SMSPollerState),
      s.processed_hashes.length + L.length ≤ 1000 →
      (L.foldl (SMSPollerState.update_with_new_sms t) s).processed_hashes.length ≤
        s.processed_hashes.length + L.length ∧
      (∀ h ∈ s.processed_hashes,
        h ∈ (L.foldl (SMSPollerState.update_with_new_sms t) s).processed_hashes) ∧
      (∀ m ∈ L, compute_sms_hash m ∈
        (L.foldl (SMSPollerState.update_with_new_sms t) s).processed_hashes) := by
  intro L
  induction L with
  | nil => exact fun s hlen => ⟨by simp, fun h hh => by simpa using hh, by simp⟩
  | cons m L ih =>
    intro s hlen
    simp only [List.length_cons] at hlen
    simp only [List.foldl_cons]
    by_cases hmem : compute_sms_hash m ∈ s.processed_hashes
    · have hph := update_ph_mem t s m hmem
      have hlen1 : (SMSPollerState.update_with_new_sms t s m).processed_hashes.length +
          L.length ≤ 1000 := by rw [hph]; omega
      obtain ⟨ha, hb, hc⟩ := ih (SMSPollerState.update_with_new_sms t s m) hlen1
      rw [hph] at ha
      refine ⟨by simp only [List.length_cons]; omega, ?_, ?_⟩
      · intro h hh
        exact hb h (by rw [hph]; exact hh)
      · intro m' hm'
        rcases List.mem_cons.1 hm' with hm' | hm'
        · subst hm'
          exact hb _ (by rw [hph]; exact hmem)
        · exact hc m' hm'
    · have hsmall : s.processed_hashes.length < 1000 := by omega
      have hph := update_ph_new t s m hmem hsmall
      have hlen1 : (SMSPollerState.update_with_new_sms t s m).processed_hashes.length +
          L.length ≤ 1000 := by
        rw [hph]
        simp only [List.length_append, List.length_singleton]
        omega
      obtain ⟨ha, hb, hc⟩ := ih (SMSPollerState.update_with_new_sms t s m) hlen1
      rw [hph] at ha
      simp only [List.length_append, List.length_singleton] at ha
      refine ⟨by simp only [List.length_cons]; omega, ?_, ?_⟩
      · intro h hh
        exact hb h (by rw [hph]; exact List.mem_append_left _ hh)
      · intro m' hm'
        rcases List.mem_cons.1 hm' with hm' | hm'
        · subst hm'
          exact hb _ (by rw [hph]; exact List.mem_append_right _ (by simp))
        · exact hc m' hm'

/-- C1 counterexample: the second run re-persists the record with an
updated `last_check` timestamp (here 2 instead of 1), so the second
cycle does not leave the state record literally unchanged. -/
theorem c1_counterexample :
    ¬ ((poll_sms ⟨fun _ => false, .ok [⟨1, "a", "t", "b", false⟩], true, true, 2⟩
          (poll_sms ⟨fun _ => false, .ok [⟨1, "a", "t", "b", false⟩], true, true, 1⟩
            {} []).stored []).exit = 0 ∧
       (poll_sms ⟨fun _ => false, .ok [⟨1, "a", "t", "b", false⟩], true, true, 2⟩
          (poll_sms ⟨fun _ => false, .ok [⟨1, "a", "t", "b", false⟩], true, true, 1⟩
            {} []).stored []).stored =
        (poll_sms ⟨fun _ => false, .ok [⟨1, "a", "t", "b", false⟩], true, true, 1⟩
          {} []).stored) := by
  intro hcl
  have h2 := congrArg SMSPollerState.last_check hcl.2
  have hL : (poll_sms ⟨fun _ => false, .ok [⟨1, "a", "t", "b", false⟩], true, true, 2⟩
      (poll_sms ⟨fun _ => false, .ok [⟨1, "a", "t", "b", false⟩], true, true, 1⟩
        {} []).stored []).stored.last_check = 2 := by decide
  have hR : (poll_sms ⟨fun _ => false, .ok [⟨1, "a", "t", "b", false⟩], true, true, 1⟩
      {} []).stored.last_check = 1 := by decide
  rw [hL, hR] at h2
  exact absurd h2 (by decide)

/-- C1 amended: running the cycle twice on the same batch from the same
starting state: the first run exits 2; provided the starting fingerprint
collection plus the batch fit within the 1000 bound (so no truncation
evicts a relevant fingerprint), the second run exits 0 and stores the
first run's record unchanged except for `last_check`, which is set to
the second run's clock. -/
theorem c1_idempotent_dedup (S : SMSPollerState) (B : List SMSMessage)
    (A1 A2 : List SmsDict) (t1 t2 : Nat) (b1 b2 : Bool)
    (hnew : B.filter (fun sms => is_new_sms sms S) ≠ [])
    (hlen : S.processed_hashes.length + B.length ≤ 1000) :
    (poll_sms ⟨fun _ => false, .ok B, true, b1, t1⟩ S A1).exit = 2 ∧
    (poll_sms ⟨fun _ => false, .ok B, true, b2, t2⟩
        (poll_sms ⟨fun _ => false, .ok B, true, b1, t1⟩ S A1).stored A2).exit = 0 ∧
    (poll_sms ⟨fun _ => false, .ok B, true, b2, t2⟩
        (poll_sms ⟨fun _ => false, .ok B, true, b1, t1⟩ S A1).stored A2).stored =
      { (poll_sms ⟨fun _ => false, .ok B, true, b1, t1⟩ S A1).stored with
          last_check := t2 } := by
  have e1 := poll_sms_newbranch (fun _ => false) B true b1 t1 S A1 rfl rfl hnew
  have hstored : (poll_sms ⟨fun _ => false, .ok B, true, b1, t1⟩ S A1).stored =
      (B.filter (fun sms => is_new_sms sms S)).foldl
        (SMSPollerState.update_with_new_sms t1) S := by
    rw [e1]
    simp
  have hlenF : S.processed_hashes.length +
      (B.filter (fun sms => is_new_sms sms S)).length ≤ 1000 := by
    have := List.length_filter_le (fun sms => is_new_sms sms S) B
    omega
  obtain ⟨hla, hmemold, hmemnew⟩ :=
    fold_update_no_trunc t1 (B.filter (fun sms => is_new_sms sms S)) S hlenF
  have hall : ∀ m ∈ B, compute_sms_hash m ∈
      ((B.filter (fun sms => is_new_sms sms S)).foldl
        (SMSPollerState.update_with_new_sms t1) S).processed_hashes := by
    intro m hm
    by_cases hn : is_new_sms m S = true
    · exact hmemnew m (List.mem_filter.2 ⟨hm, hn⟩)
    · have hin : compute_sms_hash m ∈ S.processed_hashes := by
        by_contra hnot
        exact hn (by simp [is_new_sms, hnot])
      exact hmemold _ hin
  have hnone2 : B.filter (fun sms => is_new_sms sms
      ((B.filter (fun sms => is_new_sms sms S)).foldl
        (SMSPollerState.update_with_new_sms t1) S)) = [] := by
    rw [List.filter_eq_nil_iff]
    intro m hm
    rw [is_new_sms_false m _ (hall m hm)]
    simp
  have hB : B ≠ [] := by
    intro h
    subst h
    simp at hnew
  have e2 := poll_sms_nonewbranch (fun _ => false) B true b2 t2
    ((B.filter (fun sms => is_new_sms sms S)).foldl
      (SMSPollerState.update_with_new_sms t1) S) A2 rfl rfl hB hnone2
  refine ⟨by rw [e1]; simp, ?_, ?_⟩
  · rw [hstored, e2]
    simp
  · rw [hstored, e2]
    simp [SMSPollerState.mark_check]

/-- C1 amended, witness: one fresh message against the empty default
state satisfies both hypotheses. -/
theorem c1_idempotent_dedup_witness :
    ([⟨1, "a", "t", "b", false⟩] : List SMSMessage).filter
        (fun sms => is_new_sms sms {}) ≠ [] ∧
    ({} : SMSPollerState).processed_hashes.length +
        ([⟨1, "a", "t", "b", false⟩] : List SMSMessage).length ≤ 1000 ∧
    (poll_sms ⟨fun _ => false, .ok [⟨1, "a", "t", "b", false⟩], true, true, 1⟩ {} []).exit = 2 ∧
    (poll_sms ⟨fun _ => false, .ok [⟨1, "a", "t", "b", false⟩], true, true, 2⟩
        (poll_sms ⟨fun _ => false, .ok [⟨1, "a", "t", "b", false⟩], true, true, 1⟩
          {} []).stored []).exit = 0 :=
  ⟨by decide, by decide,
    (c1_idempotent_dedup {} [⟨1, "a", "t", "b", false⟩] [] [] 1 2 true true
      (by decide) (by decide)).1,
    (c1_idempotent_dedup {} [⟨1, "a", "t", "b", false⟩] [] [] 1 2 true true
      (by decide) (by decide)).2.1⟩

/-- C10: the new/seen partition is computed against the state snapshot
loaded at cycle start: a batch holding two fingerprint-equal messages,
neither previously seen, has both classified new and both applied, so
the received counter rises by 2 while the fingerprint collection gains
only one entry and the archive stores only one copy. -/
theorem c10_snapshot_semantics (S : SMSPollerState) (A : List SmsDict) (t : Nat)
    (m1 m2 : SMSMessage)
    (hh : compute_sms_hash m2 = compute_sms_hash m1)
    (hnot : compute_sms_hash m1 ∉ S.processed_hashes)
    (hlen : S.processed_hashes.length < 1000)
    (harch : compute_sms_hash m1 ∉ A.map compute_sms_hash_dict) :
    is_new_sms m1 S = true ∧ is_new_sms m2 S = true ∧
    (poll_sms ⟨fun _ => false, .ok [m1, m2], true, true, t⟩ S A).exit = 2 ∧
    (poll_sms ⟨fun _ => false, .ok [m1, m2], true, true, t⟩ S A).stored.total_sms_received =
      S.total_sms_received + 2 ∧
    (poll_sms ⟨fun _ => false, .ok [m1, m2], true, true, t⟩ S A).stored.processed_hashes =
      S.processed_hashes ++ [compute_sms_hash m1] ∧
    (poll_sms ⟨fun _ => false, .ok [m1, m2], true, true, t⟩ S A).archive =
      A ++ [asdict m1] := by
  have hn1 : is_new_sms m1 S = true := by simp [is_new_sms, hnot]
  have hn2 : is_new_sms m2 S = true := by simp [is_new_sms, hh, hnot]
  have hfilter : ([m1, m2] : List SMSMessage).filter (fun sms => is_new_sms sms S) =
      [m1, m2] := by simp [List.filter, hn1, hn2]
  have hnew : ([m1, m2] : List SMSMessage).filter (fun sms => is_new_sms sms S) ≠ [] := by
    rw [hfilter]
    simp
  have e := poll_sms_newbranch (fun _ => false) [m1, m2] true true t S A rfl rfl hnew
  rw [hfilter] at e
  have hph1 : (SMSPollerState.update_with_new_sms t S m1).processed_hashes =
      S.processed_hashes ++ [compute_sms_hash m1] := update_ph_new t S m1 hnot hlen
  have hmem2 : compute_sms_hash m2 ∈
      (SMSPollerState.update_with_new_sms t S m1).processed_hashes := by
    rw [hph1, hh]
    exact List.mem_append_right _ (by simp)
  have hph2 : (SMSPollerState.update_with_new_sms t
        (SMSPollerState.update_with_new_sms t S m1) m2).processed_hashes =
      (SMSPollerState.update_with_new_sms t S m1).processed_hashes :=
    update_ph_mem t _ m2 hmem2
  have harch1 : compute_sms_hash_dict (asdict m1) ∉ A.map compute_sms_hash_dict := by
    rw [hash_dict_asdict]
    exact harch
  have hstep1 : archive_step (A, A.map compute_sms_hash_dict) (asdict m1) =
      (A ++ [asdict m1], A.map compute_sms_hash_dict ++ [compute_sms_hash_dict (asdict m1)]) := by
    simp [archive_step, harch1]
  have hstep2mem : compute_sms_hash_dict (asdict m2) ∈
      A.map compute_sms_hash_dict ++ [compute_sms_hash_dict (asdict m1)] := by
    rw [hash_dict_asdict, hash_dict_asdict, hh]
    exact List.mem_append_right _ (by simp)
  have harchres : save_sms_to_json A [m1, m2] = A ++ [asdict m1] := by
    unfold save_sms_to_json
    simp only [List.map_cons, List.map_nil, List.foldl_cons, List.foldl_nil, hstep1]
    simp [archive_step, hstep2mem]
  refine ⟨hn1, hn2, by rw [e]; simp, ?_, ?_, ?_⟩
  · rw [e]
    simp only [if_true, List.foldl_cons, List.foldl_nil]
    rw [update_total, update_total]
  · rw [e]
    simp only [if_true, List.foldl_cons, List.foldl_nil]
    rw [hph2, hph1]
  · rw [e]
    simp only [if_true]
    rw [harchres]

/-- C10 witness: two concrete messages that differ only in id (hence
share a fingerprint) against the default state and an empty archive. -/
theorem c10_snapshot_semantics_witness :
    compute_sms_hash ⟨2, "a", "t", "b", false⟩ = compute_sms_hash ⟨1, "a", "t", "b", false⟩ ∧
    compute_sms_hash ⟨1, "a", "t", "b", false⟩ ∉ ({} : SMSPollerState).processed_hashes ∧
    ({} : SMSPollerState).processed_hashes.length < 1000 ∧
    compute_sms_hash ⟨1, "a", "t", "b", false⟩ ∉
      ([] : List SmsDict).map compute_sms_hash_dict ∧
    (poll_sms ⟨fun _ => false,
        .ok [⟨1, "a", "t", "b", false⟩, ⟨2, "a", "t", "b", false⟩], true, true, 0⟩
      {} []).stored.total_sms_received = ({} : SMSPollerState).total_sms_received + 2 :=
  ⟨rfl, by simp, by simp, by simp,
    (c10_snapshot_semantics {} [] 0 ⟨1, "a", "t", "b", false⟩ ⟨2, "a", "t", "b", false⟩
      rfl (by simp) (by simp) (by simp)).2.2.2.1⟩
